import Mathlib

/-!
# Verification of the mf-tools window-management core

This file is a shallow embedding of the window-lifecycle core of the
repository (`src/main/services/WindowService.ts`), together with the
locale-fallback routine (`AppLocale.defaultLang`) and the context-menu
producer (`ContextMenu`).  Native windows are identified by numeric ids;
the ambient Electron state that the service observes (which windows have
been destroyed, the id supply for freshly constructed windows) is carried
explicitly in a `WindowServiceState`.  Wall-clock timestamps are integers
in milliseconds.
-/

namespace MfTools

/-- A native window handle (`BrowserWindow`), identified by a numeric id. -/
structure Win where
  id : Nat
deriving DecidableEq

/-- One `winPool` entry: the window instance (the source type allows `null`)
and the last recorded crash timestamp (ms). -/
structure WinEntry where
  window : Option Win
  lastCrashTime : Int
deriving DecidableEq

/-- The `winPool` JS `Map`, kept as an insertion-ordered association list. -/
abbrev Pool := List (String × WinEntry)

/-- `Map.prototype.get`. -/
def poolGet (p : Pool) (k : String) : Option WinEntry :=
  match p.find? (fun e => e.1 == k) with
  | some e => some e.2
  | none => none

/-- `Map.prototype.has`. -/
def poolHas (p : Pool) (k : String) : Bool :=
  (poolGet p k).isSome

/-- `Map.prototype.set`: updates an existing key in place (keys are unique in
a JS `Map`, so replacing the first occurrence is faithful), else appends. -/
def poolSet (p : Pool) (k : String) (v : WinEntry) : Pool :=
  match p with
  | [] => [(k, v)]
  | e :: rest => if e.1 == k then (k, v) :: rest else e :: poolSet rest k v

/-- `Map.prototype.delete`. -/
def poolDelete (p : Pool) (k : String) : Pool :=
  p.filter (fun e => e.1 != k)

/-- The observable state of the `WindowService` singleton plus the ambient
Electron facts it consults: `winPool` is the registry map; `destroyedIds`
records the windows for which `isDestroyed()` is true; `nextId` is the id
the next `new BrowserWindow(...)` will receive. -/
structure WindowServiceState where
  winPool : Pool
  destroyedIds : List Nat
  nextId : Nat
deriving DecidableEq

/-- `BrowserWindow.prototype.isDestroyed` for a handle, read off the state. -/
def isDestroyed (s : WindowServiceState) (win : Win) : Bool :=
  s.destroyedIds.contains win.id

/-- The empty service state at startup. -/
def initState : WindowServiceState :=
  { winPool := [], destroyedIds := [], nextId := 0 }

/-- An argument of type `string | BrowserWindow`. -/
inductive WinRef where
  | byName (name : String)
  | byWin (win : Win)
deriving DecidableEq

/-- `WindowService.getWindow`: resolves a name or an instance to a
`BrowserWindow | null`.  Faithful to the source: for a name it returns the
stored `window` field of the pool entry as is (no `isDestroyed` check), and
for an instance it returns the instance itself. -/
def getWindow (s : WindowServiceState) : WinRef → Option Win
  | .byName name =>
    if poolHas s.winPool name then
      match poolGet s.winPool name with
      | some item => item.window
      | none => none
    else none
  | .byWin mainWindow => some mainWindow

/-- `WindowService.getWindowName`: reverse lookup by identity over the pool
(the first entry whose `window` field is identical to the argument).  The
argument is an `Option` because `closeWindow` forwards a possibly-null
lookup result through a non-null assertion. -/
def getWindowName (s : WindowServiceState) (mainWindow : Option Win) : Option String :=
  match s.winPool.find? (fun e => e.2.window == mainWindow) with
  | some e => some e.1
  | none => none

/-- The constructor-and-register tail of `WindowService.createWindow`:
`new BrowserWindow(...)` (fresh id), wiring of the monitors, then
`winPool.set(windowName, { window: mainWindow, lastCrashTime: 0 })`.
The merged `BrowserWindowConstructorOptions` only configure the native
window object, which carries no state observed by this model. -/
def constructAndRegister (s : WindowServiceState) (windowName : String) :
    WindowServiceState × Win :=
  let mainWindow : Win := ⟨s.nextId⟩
  ({ winPool := poolSet s.winPool windowName ⟨some mainWindow, 0⟩,
     destroyedIds := s.destroyedIds,
     nextId := s.nextId + 1 }, mainWindow)

/-- `WindowService.createWindow(windowName, options)`: if a live window is
registered under the name, it is shown, focused and returned unchanged;
otherwise a fresh window is constructed and registered with
`lastCrashTime = 0`.  `options` is only merged into the native window
configuration and never reaches the observable state. -/
def createWindow {α : Type} (s : WindowServiceState) (windowName : String)
    (options : α) : WindowServiceState × Win :=
  match getWindow s (.byName windowName) with
  | some mainWindow =>
    if isDestroyed s mainWindow then
      constructAndRegister s windowName
    else
      -- mainWindow.show(); mainWindow.focus(); return mainWindow
      (s, mainWindow)
  | none => constructAndRegister s windowName

/-- The effect `closeWindow` had on the native window. -/
inductive CloseEffect where
  | closedGracefully (win : Win)
  | forceDestroyed (win : Win)
  | nothing
deriving DecidableEq

/-- `WindowService.closeWindow(window)`: resolves the argument, attempts
`close()` (modelled by the `closeThrows` input: when `close()` throws, the
catch block calls `destroy()`), then deletes the pool entry found by
reverse lookup.  Graceful close only requests closing, so it does not mark
the window destroyed synchronously. -/
def closeWindow (s : WindowServiceState) (window : WinRef) (closeThrows : Bool) :
    WindowServiceState × CloseEffect :=
  let mainWindow := getWindow s window
  let mainWindowName := getWindowName s mainWindow
  let closed :=
    match mainWindow with
    | some mw =>
      if isDestroyed s mw then (s, CloseEffect.nothing)
      else if closeThrows then
        ({ s with destroyedIds := mw.id :: s.destroyedIds }, CloseEffect.forceDestroyed mw)
      else (s, CloseEffect.closedGracefully mw)
    | none => (s, CloseEffect.nothing)
  match mainWindowName with
  | some n => ({ closed.1 with winPool := poolDelete closed.1.winPool n }, closed.2)
  | none => closed

/-- Outcome of the `render-process-gone` handler. -/
inductive CrashAction where
  | reload
  | exitApp (code : Int)
deriving DecidableEq

/-- The `render-process-gone` handler installed by
`WindowService.setupWindowMonitor`.  Faithful to the source: it re-stores
the entry with the OLD `lastCrashTime` (the set call passes the local
`lastCrashTime` just read, not `currentTime`), then branches on
`currentTime - lastCrashTime > 60 * 1000`.  The source dereferences the
reverse lookup with a non-null assertion; the handler is only ever invoked
for windows that are registered, so the `none` case is outside that
contract and returns no action. -/
def onRenderProcessGone (s : WindowServiceState) (mainWindow : Win)
    (currentTime : Int) : WindowServiceState × Option CrashAction :=
  match getWindowName s (some mainWindow) with
  | none => (s, none)
  | some mainWindowName =>
    let lastCrashTime : Int :=
      match poolGet s.winPool mainWindowName with
      | some item => item.lastCrashTime
      | none => 0
    let s1 := { s with
      winPool := poolSet s.winPool mainWindowName ⟨some mainWindow, lastCrashTime⟩ }
    if currentTime - lastCrashTime > 60 * 1000 then
      (s1, some CrashAction.reload)
    else
      (s1, some (CrashAction.exitApp 1))

/-- Registry well-formedness, the invariant stated in the spec data model:
keys are unique; every entry holds a window (`null` only transiently before
deletion, and no code path in the file ever stores `null`); no two entries
reference the same native window; all ids seen so far are below the id
supply. -/
def WellFormed (s : WindowServiceState) : Prop :=
  (s.winPool.map Prod.fst).Nodup ∧
  (∀ e ∈ s.winPool, e.2.window.isSome) ∧
  (s.winPool.filterMap (fun e => e.2.window)).Nodup ∧
  (∀ win ∈ s.winPool.filterMap (fun e => e.2.window), win.id < s.nextId) ∧
  (∀ i ∈ s.destroyedIds, i < s.nextId)

/-- A concrete one-window state (live main window) used by witnesses. -/
def oneWinState : WindowServiceState :=
  { winPool := [("main", ⟨some ⟨0⟩, 7⟩)], destroyedIds := [], nextId := 1 }

/-- A concrete two-window state used by witnesses. -/
def twoWinState : WindowServiceState :=
  { winPool := [("main", ⟨some ⟨0⟩, 0⟩), ("browser", ⟨some ⟨1⟩, 0⟩)],
    destroyedIds := [], nextId := 2 }

/-- State of one `safeClose` handshake for a single window:
whether the one-shot `WINDOW_DESTROY_RELAY` listener is installed, whether
the 800 ms timeout is pending, whether the window is not yet destroyed,
and the times (ms after the close request) at which `destroy()` ran. -/
structure SafeCloseState where
  listenerActive : Bool
  timerActive : Bool
  alive : Bool
  destroyTimes : List Int
deriving DecidableEq

/-- The state right after `safeClose` runs: listener installed, timer
started, window alive, `WINDOW_DESTROY` sent to the renderer. -/
def safeCloseStart : SafeCloseState :=
  { listenerActive := true, timerActive := true, alive := true, destroyTimes := [] }

/-- `finish` from `safeClose`: remove the ack listener, then destroy the
window unless it is already destroyed. -/
def finish (t : Int) (s : SafeCloseState) : SafeCloseState :=
  let s1 := { s with listenerActive := false }
  if s1.alive then
    { s1 with alive := false, destroyTimes := s1.destroyTimes ++ [t] }
  else s1

/-- `onAck` from `safeClose`: cancel a pending timer, then `finish`. -/
def onAck (t : Int) (s : SafeCloseState) : SafeCloseState :=
  finish t { s with timerActive := false }

/-- An external event in the handshake: the renderer ack arriving at time
`t`, or the 800 ms timeout maturing. -/
inductive ScEvent where
  | ack (t : Int)
  | timerFire
deriving DecidableEq

/-- Delivery time of an event on the host event loop. -/
def ScEvent.time : ScEvent → Int
  | .ack t => t
  | .timerFire => 800

/-- One event-loop delivery: an ack reaches `onAck` only while the one-shot
listener is installed (`ipcMain.once` removes the listener before invoking
it); the timeout callback runs only if the timeout is still pending
(`clearTimeout` cancels it). -/
def scStep (s : SafeCloseState) : ScEvent → SafeCloseState
  | .ack t => if s.listenerActive then onAck t { s with listenerActive := false } else s
  | .timerFire => if s.timerActive then onAck 800 s else s

/-- Run a whole handshake: deliver the events in order from the
just-started state. -/
def scRun (evs : List ScEvent) : SafeCloseState :=
  evs.foldl scStep safeCloseStart

/-- Does the char list start with the pattern?  (The native `String`
searching functions are opaque to kernel evaluation, so the JS string
primitives are modelled structurally over `List Char`.) -/
def listStartsWith : List Char → List Char → Bool
  | _, [] => true
  | [], _ :: _ => false
  | c :: cs, p :: ps => c == p && listStartsWith cs ps

/-- The remainder after removing the pattern prefix, when it is a prefix. -/
def dropPre : List Char → List Char → Option (List Char)
  | s, [] => some s
  | [], _ :: _ => none
  | c :: cs, p :: ps => if c == p then dropPre cs ps else none

/-- Does the pattern occur as a contiguous sublist? -/
def listContainsSub : List Char → List Char → Bool
  | [], pat => listStartsWith [] pat
  | c :: rest, pat => listStartsWith (c :: rest) pat || listContainsSub rest pat

/-- Remove the first occurrence of the pattern (no change when absent). -/
def listRemoveFirst : List Char → List Char → List Char
  | [], pat =>
    match dropPre [] pat with
    | some r => r
    | none => []
  | c :: rest, pat =>
    match dropPre (c :: rest) pat with
    | some r => r
    | none => c :: listRemoveFirst rest pat

/-- The chars strictly before the first occurrence of the pattern (the
whole list when the pattern is absent); meant for nonempty patterns. -/
def takeBeforeSub : List Char → List Char → List Char
  | [], _ => []
  | c :: rest, pat =>
    if listStartsWith (c :: rest) pat then [] else c :: takeBeforeSub rest pat

/-- The remainder strictly after the first occurrence of the pattern. -/
def afterFirstSub : List Char → List Char → Option (List Char)
  | [], pat => dropPre [] pat
  | c :: rest, pat =>
    match dropPre (c :: rest) pat with
    | some r => some r
    | none => afterFirstSub rest pat

/-- JS `String.prototype.includes`. -/
def jsIncludes (s pat : String) : Bool :=
  listContainsSub s.data pat.data

/-- JS `String.prototype.startsWith`. -/
def jsStartsWith (s pre : String) : Bool :=
  listStartsWith s.data pre.data

/-- JS `String.prototype.replace(pat, "")` for a plain-string pattern:
removes the first occurrence only. -/
def jsReplaceFirst (s pat : String) : String :=
  ⟨listRemoveFirst s.data pat.data⟩

/-- JS `s.split(sep)[1]` for a nonempty separator: the text strictly
between the first separator occurrence and the next one (or the end);
`undefined` (none) when the separator does not occur. -/
def jsSplitSecond (s sep : String) : Option String :=
  match afterFirstSub s.data sep.data with
  | some r => some ⟨takeBeforeSub r sep.data⟩
  | none => none

/-- JS `String.prototype.trim`. -/
def jsTrim (s : String) : String :=
  ⟨((s.data.dropWhile Char.isWhitespace).reverse.dropWhile Char.isWhitespace).reverse⟩

/-- The OAuth allow-list from `setupWebContentsHandlers`. -/
def oauthProviderUrls : List String := ["github.com", "catni.cn", "pagespy.org"]

/-- `WINDOW_NAME.BROWSER`, the registry key of the shared browser window. -/
def WINDOW_NAME_BROWSER : String := "browser"

/-- The decision a `setWindowOpenHandler` callback returns: `allow` carries
the forced `webPreferences.partition` override. -/
inductive OpenDecision where
  | allow (partition : String)
  | deny
deriving DecidableEq

/-- The side effect of the handler beyond the decision: hand the resolved
path to `shell.openPath`; dispatch `BROWSER_NAVIGATE` to the live browser
window after showing it; or create the browser window and dispatch
`BROWSER_NAVIGATE` once its first load finishes plus a settling delay. -/
inductive OpenEffect where
  | openFile (filePath : String)
  | navigateExisting (navUrl : String)
  | navigateAfterLoad (navUrl : String) (delayMs : Int)
deriving DecidableEq

/-- The `setWindowOpenHandler` callback from
`WindowService.setupWebContentsHandlers`: OAuth-provider URLs are allowed
in an isolated `persist:webview` session; `http://file/` URLs resolve
under the file-storage root and go to the OS open-file facility; anything
else is routed to the shared browser window.  All non-OAuth branches
return a deny decision. -/
def windowOpenHandler (s : WindowServiceState) (url : String)
    (appFilePath : String) : OpenDecision × Option OpenEffect :=
  if oauthProviderUrls.any (fun link => jsIncludes url link) then
    (OpenDecision.allow "persist:webview", none)
  else if jsIncludes url "http://file/" then
    let fileName := jsReplaceFirst url "http://file/"
    let filePath := appFilePath ++ "/" ++ fileName
    (OpenDecision.deny, some (OpenEffect.openFile filePath))
  else
    match getWindow s (.byName WINDOW_NAME_BROWSER) with
    | some window =>
      if isDestroyed s window then
        (OpenDecision.deny, some (OpenEffect.navigateAfterLoad url 1000))
      else
        (OpenDecision.deny, some (OpenEffect.navigateExisting url))
    | none => (OpenDecision.deny, some (OpenEffect.navigateAfterLoad url 1000))

/-- JS falsiness of an optional string (`undefined` and `""` are falsy). -/
def strFalsy : Option String → Bool
  | none => true
  | some s => s == ""

/-- The final clamp of `defaultLang`:
`if (!langCode.includes(lang)) lang = defaultLocale; return lang`
(an `undefined` `lang` is never an element of `langCode`). -/
def clampLang (lang : Option String) (langCode : List String)
    (defaultLocale : String) : String :=
  match lang with
  | some l => if langCode.contains l then l else defaultLocale
  | none => defaultLocale

/-- `AppLocale.defaultLang`, faithful to the source including the dead
region-classification branch: on a system locale starting with "zh" the
source reads `appLocale.split('-')[1]` and calls `.toLocaleLowerCase()` on
it; when the locale contains no "-" that index is `undefined` and the call
throws a TypeError, modelled by `Except.error`.  The assignments
`lang = 'zh-CN'` and `lang = 'zh-TW'` are then both overwritten by the
unconditional `lang = appLocale`.  The supported-code list `langCode` and
`defaultLocale` live in a shared module outside the embedded file and are
taken as parameters. -/
def defaultLang (value : Option String) (configLang : Option String)
    (sysLocale : String) (langCode : List String) (defaultLocale : String) :
    Except Unit String :=
  let lang := value
  let lang := if strFalsy lang then configLang else lang
  if strFalsy lang || lang == some "system" then
    let appLocale := sysLocale
    if jsStartsWith appLocale "zh" then
      match jsSplitSecond appLocale "-" with
      | none => Except.error ()
      | some region =>
        let lang := if ["hans", "cn", "sg", "my"].contains region.toLower
          then some "zh-CN" else lang
        let lang := some "zh-TW"
        let lang := some appLocale
        Except.ok (clampLang lang langCode defaultLocale)
    else
      let lang := some appLocale
      Except.ok (clampLang lang langCode defaultLocale)
  else
    Except.ok (clampLang lang langCode defaultLocale)

/-- The variant of `defaultLang` with the whole region-classification
branch removed, which the spec claims is extensionally equal. -/
def defaultLangNoZhBranch (value : Option String) (configLang : Option String)
    (sysLocale : String) (langCode : List String) (defaultLocale : String) :
    Except Unit String :=
  let lang := value
  let lang := if strFalsy lang then configLang else lang
  if strFalsy lang || lang == some "system" then
    let appLocale := sysLocale
    let lang := some appLocale
    Except.ok (clampLang lang langCode defaultLocale)
  else
    Except.ok (clampLang lang langCode defaultLocale)

/-- The `editFlags` of a `context-menu` event. -/
structure EditFlags where
  canCopy : Bool
  canPaste : Bool
  canCut : Bool
deriving DecidableEq

/-- The `ContextMenuParams` fields the menu producer reads. -/
structure ContextMenuParams where
  selectionText : String
  isEditable : Bool
  misspelledWord : String
  dictionarySuggestions : List String
  editFlags : EditFlags
deriving DecidableEq

/-- A semantic menu role. -/
inductive MenuRole where
  | copy
  | paste
  | cut
deriving DecidableEq

/-- A `MenuItemConstructorOptions` template entry; click handlers carry no
observable state and are omitted.  Unset fields default as in Electron:
`visible` and `enabled` true, no role. -/
structure MenuItem where
  id : Option String := none
  label : String := ""
  role : Option MenuRole := none
  enabled : Bool := true
  visible : Bool := true
  isSeparator : Bool := false
deriving DecidableEq

/-- A `type: 'separator'` entry. -/
def separatorItem : MenuItem := { isSeparator := true }

/-- `ContextMenu.createEditMenuItems`.  Labels stand for their i18n keys.
The final map clears the role of disabled entries, as the source does. -/
def createEditMenuItems (properties : ContextMenuParams) : List MenuItem :=
  let hasText := decide (0 < (jsTrim properties.selectionText).length)
  let template : List MenuItem :=
    [{ id := some "copy", label := "system.edit.copy", role := some MenuRole.copy,
       enabled := properties.editFlags.canCopy && hasText,
       visible := properties.isEditable || hasText },
     { id := some "paste", label := "system.edit.paste", role := some MenuRole.paste,
       enabled := properties.editFlags.canPaste,
       visible := properties.isEditable },
     { id := some "cut", label := "system.edit.cut", role := some MenuRole.cut,
       enabled := properties.editFlags.canCut && hasText,
       visible := properties.isEditable }]
  template.map (fun item => if item.enabled = false then { item with role := none } else item)

/-- The single entry built by `ContextMenu.createInspectMenuItems`. -/
def inspectItem : MenuItem :=
  { id := some "inspect", label := "system.contextMenu.inspect", enabled := true }

/-- `ContextMenu.createInspectMenuItems`. -/
def createInspectMenuItems : List MenuItem := [inspectItem]

/-- `ContextMenu.createSpellCheckMenuItem`. -/
def createSpellCheckMenuItem (properties : ContextMenuParams) : MenuItem :=
  let hasText := decide (0 < properties.selectionText.length)
  { id := some "learnSpelling", label := "&Learn Spelling",
    visible := properties.isEditable && hasText && properties.misspelledWord != "" }

/-- `ContextMenu.createDictionarySuggestions`. -/
def createDictionarySuggestions (properties : ContextMenuParams) : List MenuItem :=
  let hasText := decide (0 < properties.selectionText.length)
  if !hasText || properties.misspelledWord == "" then []
  else if properties.dictionarySuggestions.length == 0 then
    [{ id := some "dictionarySuggestions", label := "No Guesses Found",
       visible := true, enabled := false }]
  else
    properties.dictionarySuggestions.map (fun suggestion =>
      { id := some "dictionarySuggestions", label := suggestion,
        visible := properties.isEditable && hasText
          && properties.misspelledWord != "" })

/-- The `context-menu` event handler installed by
`ContextMenu.contextMenu`: builds the edit template, filters out invisible
entries, and pops a menu only when some edit entry survives, appending the
inspect entry and prepending spelling entries when applicable.  Returns
the popped-up template, or `none` when the menu is suppressed. -/
def shownMenu (properties : ContextMenuParams) : Option (List MenuItem) :=
  let template := createEditMenuItems properties
  let filtered := template.filter (fun item => item.visible != false)
  if 0 < filtered.length then
    let template2 := filtered ++ createInspectMenuItems
    let dictionarySuggestions := createDictionarySuggestions properties
    let template3 :=
      if 0 < dictionarySuggestions.length then
        dictionarySuggestions ++ [separatorItem]
          ++ [createSpellCheckMenuItem properties] ++ [separatorItem] ++ template2
      else template2
    some template3
  else
    none

/-- A `context-menu` invocation with no selected text on a non-editable
region. -/
def noSelectionParams : ContextMenuParams :=
  { selectionText := "", isEditable := false, misspelledWord := "",
    dictionarySuggestions := [], editFlags := ⟨true, true, true⟩ }

/-- A `context-menu` invocation with selected text in an editable region. -/
def selectionParams : ContextMenuParams :=
  { selectionText := "hello", isEditable := true, misspelledWord := "",
    dictionarySuggestions := [], editFlags := ⟨true, true, true⟩ }

end MfTools

namespace MfTools

theorem poolGet_poolSet_self (p : Pool) (k : String) (v : WinEntry) :
    poolGet (poolSet p k v) k = some v := by
  induction p with
  | nil => simp [poolSet, poolGet]
  | cons e rest ih =>
    by_cases h : e.1 == k
    · simp [poolSet, h, poolGet, List.find?]
    · simp only [poolSet, h, if_false]
      simpa [poolGet, List.find?, h] using ih

theorem countP_eq_zero_of_key_not_mem (p : Pool) (k : String)
    (h : k ∉ p.map Prod.fst) :
    p.countP (fun e => e.1 == k) = 0 := by
  rw [List.countP_eq_zero]
  intro a ha
  simp only [beq_iff_eq]
  intro hak
  exact h (by simpa [hak] using List.mem_map_of_mem Prod.fst ha)

theorem countP_poolSet_self (p : Pool) (k : String) (v : WinEntry)
    (hnd : (p.map Prod.fst).Nodup) :
    (poolSet p k v).countP (fun e => e.1 == k) = 1 := by
  induction p with
  | nil => simp [poolSet]
  | cons e rest ih =>
    simp only [List.map_cons, List.nodup_cons] at hnd
    by_cases h : e.1 == k
    · have hk : e.1 = k := by simpa using h
      have : rest.countP (fun e => e.1 == k) = 0 :=
        countP_eq_zero_of_key_not_mem rest k (hk ▸ hnd.1)
      simp [poolSet, h, List.countP_cons, this]
    · simp [poolSet, h, List.countP_cons, ih hnd.2]

theorem countP_eq_one_of_has (p : Pool) (k : String)
    (hnd : (p.map Prod.fst).Nodup) (hhas : poolHas p k = true) :
    p.countP (fun e => e.1 == k) = 1 := by
  induction p with
  | nil => simp [poolHas, poolGet] at hhas
  | cons e rest ih =>
    simp only [List.map_cons, List.nodup_cons] at hnd
    by_cases h : e.1 == k
    · have hk : e.1 = k := by simpa using h
      have : rest.countP (fun e => e.1 == k) = 0 :=
        countP_eq_zero_of_key_not_mem rest k (hk ▸ hnd.1)
      simp [List.countP_cons, h, this]
    · have hhas' : poolHas rest k = true := by
        simpa [poolHas, poolGet, List.find?, h] using hhas
      simp [List.countP_cons, h, ih hnd.2 hhas']

theorem poolGet_poolHas (p : Pool) (k : String) (e : WinEntry)
    (h : poolGet p k = some e) : poolHas p k = true := by
  simp [poolHas, h]

theorem getWindow_byName_elim (s : WindowServiceState) (name : String) (win : Win)
    (h : getWindow s (.byName name) = some win) :
    poolHas s.winPool name = true ∧
    ∃ e, poolGet s.winPool name = some e ∧ e.window = some win := by
  by_cases hhas : poolHas s.winPool name
  · refine ⟨hhas, ?_⟩
    match hget : poolGet s.winPool name with
    | some item =>
      refine ⟨item, rfl, ?_⟩
      simpa [getWindow, hhas, hget] using h
    | none => simp [poolHas, hget] at hhas
  · simp [getWindow, hhas] at h

theorem poolGet_mem (p : Pool) (k : String) (e : WinEntry)
    (h : poolGet p k = some e) : (k, e) ∈ p := by
  induction p with
  | nil => simp [poolGet] at h
  | cons hd rest ih =>
    by_cases hk : hd.1 == k
    · have h2 : hd.2 = e := by simpa [poolGet, List.find?, hk] using h
      have hk' : hd.1 = k := by simpa using hk
      have : hd = (k, e) := by
        cases hd
        simp_all
      rw [this]
      exact List.mem_cons_self _ _
    · right
      exact ih (by simpa [poolGet, List.find?, hk] using h)

theorem find?_by_window_of_mem (p : Pool) (n : String) (e : WinEntry) (win : Win)
    (hinj : (p.filterMap (fun x => x.2.window)).Nodup)
    (hmem : (n, e) ∈ p) (hwin : e.window = some win) :
    ∃ e', p.find? (fun x => x.2.window == some win) = some (n, e') := by
  induction p with
  | nil => simp at hmem
  | cons hd rest ih =>
    by_cases hh : hd.2.window == some win
    · have hhd : hd.2.window = some win := by simpa using hh
      rcases List.mem_cons.mp hmem with heq | hrest
      · refine ⟨hd.2, ?_⟩
        rw [List.find?_cons_of_pos (p := fun x => x.2.window == some win) rest hh, ← heq]
      · exfalso
        have hwmem : win ∈ rest.filterMap (fun x => x.2.window) :=
          List.mem_filterMap.mpr ⟨(n, e), hrest, hwin⟩
        simp only [List.filterMap_cons, hhd] at hinj
        exact (List.nodup_cons.mp hinj).1 hwmem
    · have hne : (n, e) ≠ hd := by
        intro heq
        apply hh
        rw [← heq]
        simpa using hwin
      have hrest : (n, e) ∈ rest := by
        rcases List.mem_cons.mp hmem with heq | hr
        · exact absurd heq hne
        · exact hr
      have hinj' : (rest.filterMap (fun x => x.2.window)).Nodup := by
        match hw : hd.2.window with
        | some w0 =>
          simp only [List.filterMap_cons, hw] at hinj
          exact (List.nodup_cons.mp hinj).2
        | none =>
          simpa only [List.filterMap_cons, hw] using hinj
      rw [List.find?_cons_of_neg (p := fun x => x.2.window == some win) rest hh]
      exact ih hinj' hrest

theorem poolHas_poolDelete_self (p : Pool) (k : String) :
    poolHas (poolDelete p k) k = false := by
  have h : (poolDelete p k).find? (fun e => e.1 == k) = none := by
    rw [List.find?_eq_none]
    intro x hx
    have hne := (List.mem_filter.mp hx).2
    simpa using hne
  simp [poolHas, poolGet, h]

/-- If a live window is registered under the name, `createWindow` activates
and returns it without touching the state. -/
theorem createWindow_reuse {α : Type} (s : WindowServiceState) (name : String)
    (o : α) (mw : Win)
    (hlive : getWindow s (.byName name) = some mw)
    (hnd : isDestroyed s mw = false) :
    createWindow s name o = (s, mw) := by
  unfold createWindow
  rw [hlive]
  simp [hnd]

/-- If no live window is registered under the name, `createWindow`
constructs and registers a fresh one. -/
theorem createWindow_not_reuse {α : Type} (s : WindowServiceState) (name : String)
    (o : α)
    (h : ∀ mw, getWindow s (.byName name) = some mw → isDestroyed s mw = true) :
    createWindow s name o = constructAndRegister s name := by
  unfold createWindow
  cases hg : getWindow s (.byName name) with
  | none => rfl
  | some mw => simp [h mw hg]

/-- After a fresh construction, the name resolves to the new window, the new
window is live, and the name has exactly one pool entry. -/
theorem createWindow_fresh_post {α : Type} (s : WindowServiceState) (name : String)
    (o : α)
    (hkeys : (s.winPool.map Prod.fst).Nodup)
    (hdest : ∀ i ∈ s.destroyedIds, i < s.nextId)
    (hfresh : createWindow s name o = constructAndRegister s name) :
    getWindow (createWindow s name o).1 (.byName name)
      = some (createWindow (α := α) s name o).2 ∧
    isDestroyed (createWindow s name o).1 (createWindow (α := α) s name o).2 = false ∧
    (createWindow (α := α) s name o).1.winPool.countP (fun e => e.1 == name) = 1 := by
  rw [hfresh]
  unfold constructAndRegister
  have hget := poolGet_poolSet_self s.winPool name ⟨some ⟨s.nextId⟩, 0⟩
  refine ⟨?_, ?_, ?_⟩
  · simp [getWindow, poolHas, hget]
  · have hnm : s.nextId ∉ s.destroyedIds := fun hm => absurd (hdest _ hm) (lt_irrefl _)
    simpa [isDestroyed] using hnm
  · exact countP_poolSet_self s.winPool name _ hkeys

/-- With pairwise-distinct window references, the reverse lookup of a
registered window recovers exactly its registration name. -/
theorem getWindowName_of_mem (s : WindowServiceState) (n : String) (e : WinEntry)
    (win : Win)
    (hinj : (s.winPool.filterMap (fun x => x.2.window)).Nodup)
    (hmem : (n, e) ∈ s.winPool) (hwin : e.window = some win) :
    getWindowName s (some win) = some n := by
  obtain ⟨e', hfind⟩ := find?_by_window_of_mem s.winPool n e win hinj hmem hwin
  simp [getWindowName, hfind]

end MfTools

namespace MfTools

/-- C2: on a crash, the code stores the OLD `lastCrashTime` back into the
registry entry instead of the crash time.  Concrete run: create the main
window (entry starts with `lastCrashTime = 0`), crash at t = 100000000 ms;
afterwards the entry still holds `lastCrashTime = 0`, not the crash time:
the source `winPool.set(name, { window, lastCrashTime })` on line 381
passes the previously read value where its own documentation requires the
current time to be recorded. -/
theorem lastCrashTime_not_updated_on_crash :
    (onRenderProcessGone (createWindow initState "main" ()).1
        (createWindow initState "main" ()).2 100000000).1.winPool
      = [("main", ⟨some ⟨0⟩, 0⟩)] ∧
    ((0 : Int) ≠ 100000000) := by
  decide

/-- C1: two crashes 30000 ms apart (Δt ≤ 60000) should, per the claim and
the code comments, terminate the application; instead the code reloads on
the second crash as well, because `lastCrashTime` is still 0 when the
second crash compares `currentTime - lastCrashTime`.  Concrete run with
crashes at t₁ = 100000000 and t₂ = 100030000. -/
theorem crash_loop_not_detected :
    (onRenderProcessGone (createWindow initState "main" ()).1
        (createWindow initState "main" ()).2 100000000).2
      = some CrashAction.reload ∧
    (onRenderProcessGone
        (onRenderProcessGone (createWindow initState "main" ()).1
          (createWindow initState "main" ()).2 100000000).1
        (createWindow initState "main" ()).2 100030000).2
      = some CrashAction.reload ∧
    (onRenderProcessGone
        (onRenderProcessGone (createWindow initState "main" ()).1
          (createWindow initState "main" ()).2 100000000).1
        (createWindow initState "main" ()).2 100030000).2
      ≠ some (CrashAction.exitApp 1) ∧
    ((100030000 : Int) - 100000000 ≤ 60000) := by
  decide

/-- C3: calling `createWindow(N, options)` twice in a row without an
intervening close yields exactly one live registry entry for N (the pool
holds exactly one entry keyed N, that entry resolves to the returned
window, and the window is not destroyed), and the second call returns the
identical handle that the first call returned. -/
theorem createWindow_twice_idempotent {α β : Type} (s : WindowServiceState)
    (name : String) (o₁ : α) (o₂ : β) (hwf : WellFormed s) :
    (createWindow (createWindow s name o₁).1 name o₂).2
      = (createWindow s name o₁).2 ∧
    (createWindow (createWindow s name o₁).1 name o₂).1.winPool.countP
      (fun e => e.1 == name) = 1 ∧
    getWindow (createWindow (createWindow s name o₁).1 name o₂).1 (.byName name)
      = some (createWindow s name o₁).2 ∧
    isDestroyed (createWindow (createWindow s name o₁).1 name o₂).1
      (createWindow s name o₁).2 = false := by
  obtain ⟨hkeys, hnn, hinj, hids, hdest⟩ := hwf
  have post1 : getWindow (createWindow s name o₁).1 (.byName name)
        = some (createWindow s name o₁).2 ∧
      isDestroyed (createWindow s name o₁).1 (createWindow s name o₁).2 = false ∧
      (createWindow s name o₁).1.winPool.countP (fun e => e.1 == name) = 1 := by
    cases hg : getWindow s (.byName name) with
    | some mw =>
      by_cases hd : isDestroyed s mw = true
      · exact createWindow_fresh_post s name o₁ hkeys hdest
          (createWindow_not_reuse s name o₁
            (fun mw' hg' => by rw [hg] at hg'; cases hg'; exact hd))
      · have h1 := createWindow_reuse s name o₁ mw hg (by simpa using hd)
        rw [h1]
        exact ⟨hg, by simpa using hd,
          countP_eq_one_of_has _ _ hkeys (getWindow_byName_elim s name mw hg).1⟩
    | none =>
      exact createWindow_fresh_post s name o₁ hkeys hdest
        (createWindow_not_reuse s name o₁
          (fun mw' hg' => by rw [hg] at hg'; cases hg'))
  obtain ⟨hget1, hnd1, hcount1⟩ := post1
  have h2 := createWindow_reuse (createWindow s name o₁).1 name o₂
    (createWindow s name o₁).2 hget1 hnd1
  rw [h2]
  exact ⟨rfl, hcount1, hget1, hnd1⟩

/-- C3 witness: two `createWindow` calls on the fresh startup state. -/
theorem createWindow_twice_idempotent_witness :
    (createWindow (createWindow initState "browser" ()).1 "browser" ()).2
      = (createWindow initState "browser" ()).2 ∧
    (createWindow (createWindow initState "browser" ()).1 "browser" ()).1.winPool.countP
      (fun e => e.1 == "browser") = 1 ∧
    getWindow (createWindow (createWindow initState "browser" ()).1 "browser" ()).1
      (.byName "browser") = some (createWindow initState "browser" ()).2 ∧
    isDestroyed (createWindow (createWindow initState "browser" ()).1 "browser" ()).1
      (createWindow initState "browser" ()).2 = false :=
  createWindow_twice_idempotent initState "browser" () () (by
    refine ⟨?_, ?_, ?_, ?_, ?_⟩ <;> simp [initState])

/-- C10: when the registry holds a live window for the name, the
caller-supplied options have no effect: the call returns the existing
handle and the whole service state — in particular the registry entry for
the name with its `lastCrashTime` — is unchanged, for any two option
values of any types. -/
theorem createWindow_reuse_ignores_options {α β : Type} (s : WindowServiceState)
    (name : String) (mw : Win) (o₁ : α) (o₂ : β)
    (hlive : getWindow s (.byName name) = some mw)
    (hnd : isDestroyed s mw = false) :
    createWindow s name o₁ = (s, mw) ∧ createWindow s name o₂ = (s, mw) :=
  ⟨createWindow_reuse s name o₁ mw hlive hnd,
   createWindow_reuse s name o₂ mw hlive hnd⟩

/-- C10 witness: a state with a live registered main window; two different
option values. -/
theorem createWindow_reuse_ignores_options_witness :
    createWindow oneWinState "main" (5 : Nat) = (oneWinState, ⟨0⟩) ∧
    createWindow oneWinState "main" "opts" = (oneWinState, ⟨0⟩) :=
  createWindow_reuse_ignores_options oneWinState "main" ⟨0⟩ (5 : Nat) "opts"
    (by decide) (by decide)

/-- C5: for a registered name N, after `closeWindow(N)` the registry no
longer contains an entry for N and `getWindow(N)` returns `null`, on both
the graceful-close path and the close-throws/force-destroy path. -/
theorem closeWindow_removes_entry (s : WindowServiceState) (n : String)
    (closeThrows : Bool) (hwf : WellFormed s) (hreg : poolHas s.winPool n = true) :
    poolHas (closeWindow s (.byName n) closeThrows).1.winPool n = false ∧
    getWindow (closeWindow s (.byName n) closeThrows).1 (.byName n) = none := by
  obtain ⟨hkeys, hnn, hinj, hids, hdest⟩ := hwf
  obtain ⟨e, hget⟩ := Option.isSome_iff_exists.mp (by simpa [poolHas] using hreg)
  have hmem := poolGet_mem s.winPool n e hget
  obtain ⟨mw, hw0⟩ := Option.isSome_iff_exists.mp (hnn _ hmem)
  have hw : e.window = some mw := hw0
  have hgw : getWindow s (.byName n) = some mw := by
    simp [getWindow, poolHas, hget, hw]
  have hname : getWindowName s (some mw) = some n :=
    getWindowName_of_mem s n e mw hinj hmem hw
  have hpool : (closeWindow s (.byName n) closeThrows).1.winPool
      = poolDelete s.winPool n := by
    by_cases hd : isDestroyed s mw = true <;> cases closeThrows <;>
      simp [closeWindow, hgw, hname, hd]
  refine ⟨?_, ?_⟩
  · rw [hpool]
    exact poolHas_poolDelete_self s.winPool n
  · simp [getWindow, hpool, poolHas_poolDelete_self]

/-- C5 witness: closing the registered "main" window in a two-window pool,
on the graceful path and on the close-throws path. -/
theorem closeWindow_removes_entry_witness :
    (poolHas (closeWindow twoWinState (.byName "main") false).1.winPool "main" = false ∧
      getWindow (closeWindow twoWinState (.byName "main") false).1 (.byName "main") = none) ∧
    (poolHas (closeWindow twoWinState (.byName "main") true).1.winPool "main" = false ∧
      getWindow (closeWindow twoWinState (.byName "main") true).1 (.byName "main") = none) :=
  ⟨closeWindow_removes_entry twoWinState "main" false (by
      refine ⟨?_, ?_, ?_, ?_, ?_⟩ <;> decide) (by decide),
   closeWindow_removes_entry twoWinState "main" true (by
      refine ⟨?_, ?_, ?_, ?_, ?_⟩ <;> decide) (by decide)⟩

/-- C7: `getWindow` does not check `isDestroyed()`.  For a pool entry whose
window has been destroyed, it returns the dead handle rather than `null`,
contradicting its own doc comment (and the spec), which promise `null` for
a destroyed window. -/
theorem getWindow_returns_destroyed_handle :
    getWindow { winPool := [("sniffer-1", ⟨some ⟨0⟩, 0⟩)],
                destroyedIds := [0], nextId := 1 } (.byName "sniffer-1")
      = some ⟨0⟩ ∧
    isDestroyed { winPool := [("sniffer-1", ⟨some ⟨0⟩, 0⟩)],
                  destroyedIds := [0], nextId := 1 } ⟨0⟩ = true := by
  decide

theorem scStep_start (e : ScEvent) :
    scStep safeCloseStart e
      = { listenerActive := false, timerActive := false, alive := false,
          destroyTimes := [e.time] } := by
  cases e <;> simp [scStep, safeCloseStart, onAck, finish, ScEvent.time]

theorem foldl_scStep_frozen (l : List ScEvent) (s : SafeCloseState)
    (hl : s.listenerActive = false) (ht : s.timerActive = false) :
    l.foldl scStep s = s := by
  induction l with
  | nil => rfl
  | cons e rest ih =>
    have hstep : scStep s e = s := by cases e <;> simp [scStep, hl, ht]
    rw [List.foldl_cons, hstep]
    exact ih

/-- C4: in the safe-close handshake, over any time-ordered delivery of
events that includes the timer maturing (the timer always matures unless
cancelled), `destroy()` runs exactly once, at the time of the first event
— the ack time when an ack arrives before the timer, and the 800 ms
boundary when no ack arrived by then — and that time is at most 800 ms;
afterwards the ack listener is removed and no timer is pending. -/
theorem safeClose_destroys_exactly_once (evs : List ScEvent)
    (hsorted : evs.Pairwise (fun a b => a.time ≤ b.time))
    (htimer : ScEvent.timerFire ∈ evs) :
    ∃ t, (scRun evs).destroyTimes = [t] ∧ t ≤ 800 ∧
      evs.head?.map ScEvent.time = some t ∧
      (scRun evs).listenerActive = false ∧
      (scRun evs).timerActive = false := by
  cases evs with
  | nil => simp at htimer
  | cons e rest =>
    have hrun : scRun (e :: rest)
        = { listenerActive := false, timerActive := false, alive := false,
            destroyTimes := [e.time] } := by
      unfold scRun
      rw [List.foldl_cons, scStep_start]
      exact foldl_scStep_frozen rest _ rfl rfl
    have hle : e.time ≤ 800 := by
      rcases List.mem_cons.mp htimer with he | hr
      · rw [← he]
        simp [ScEvent.time]
      · exact (List.pairwise_cons.mp hsorted).1 _ hr
    exact ⟨e.time, by rw [hrun], hle, rfl, by rw [hrun], by rw [hrun]⟩

/-- C4 witness: the ack arrives at 200 ms, before the timer matures. -/
theorem safeClose_destroys_exactly_once_witness :
    ∃ t, (scRun [ScEvent.ack 200, ScEvent.timerFire]).destroyTimes = [t] ∧
      t ≤ 800 ∧
      ([ScEvent.ack 200, ScEvent.timerFire].head?.map ScEvent.time = some t) ∧
      (scRun [ScEvent.ack 200, ScEvent.timerFire]).listenerActive = false ∧
      (scRun [ScEvent.ack 200, ScEvent.timerFire]).timerActive = false :=
  safeClose_destroys_exactly_once [ScEvent.ack 200, ScEvent.timerFire]
    (by simp [List.pairwise_cons, ScEvent.time]) (by simp)

/-- C6: the open-new-window contract.  A URL matching the OAuth allow-list
is allowed with the forced isolated partition `persist:webview` and no
other effect; otherwise a URL containing the internal `http://file/`
pseudo-scheme is denied, resolved under the file-storage root, and handed
to the OS open-file facility (no window is created); any other URL is
denied and the shared browser window receives the navigate dispatch —
directly when it is alive, otherwise after creation, first load, and a
1000 ms settling delay. -/
theorem windowOpenHandler_contract (s : WindowServiceState)
    (url appFilePath : String) :
    (oauthProviderUrls.any (fun link => jsIncludes url link) = true →
      windowOpenHandler s url appFilePath
        = (OpenDecision.allow "persist:webview", none)) ∧
    (oauthProviderUrls.any (fun link => jsIncludes url link) = false →
      jsIncludes url "http://file/" = true →
      windowOpenHandler s url appFilePath
        = (OpenDecision.deny, some (OpenEffect.openFile
            (appFilePath ++ "/" ++ jsReplaceFirst url "http://file/")))) ∧
    (oauthProviderUrls.any (fun link => jsIncludes url link) = false →
      jsIncludes url "http://file/" = false →
      (windowOpenHandler s url appFilePath).1 = OpenDecision.deny ∧
      (∀ win, getWindow s (.byName WINDOW_NAME_BROWSER) = some win →
        isDestroyed s win = false →
        (windowOpenHandler s url appFilePath).2
          = some (OpenEffect.navigateExisting url)) ∧
      ((∀ win, getWindow s (.byName WINDOW_NAME_BROWSER) = some win →
          isDestroyed s win = true) →
        (windowOpenHandler s url appFilePath).2
          = some (OpenEffect.navigateAfterLoad url 1000))) := by
  refine ⟨fun hoauth => ?_, fun hoauth hfile => ?_, fun hoauth hfile => ?_⟩
  · simp [windowOpenHandler, hoauth]
  · simp [windowOpenHandler, hoauth, hfile]
  · refine ⟨?_, fun win hwin hlive => ?_, fun hdead => ?_⟩
    · cases hg : getWindow s (.byName WINDOW_NAME_BROWSER) with
      | some win =>
        by_cases hd : isDestroyed s win = true <;>
          simp [windowOpenHandler, hoauth, hfile, hg, hd]
      | none => simp [windowOpenHandler, hoauth, hfile, hg]
    · simp [windowOpenHandler, hoauth, hfile, hwin, hlive]
    · cases hg : getWindow s (.byName WINDOW_NAME_BROWSER) with
      | some win => simp [windowOpenHandler, hoauth, hfile, hg, hdead win hg]
      | none => simp [windowOpenHandler, hoauth, hfile, hg]

/-- C6 witness: a GitHub OAuth URL, an internal file URL, and a generic
external URL against a state whose browser window is alive. -/
theorem windowOpenHandler_contract_witness :
    windowOpenHandler twoWinState "https://github.com/login" "/files"
      = (OpenDecision.allow "persist:webview", none) ∧
    windowOpenHandler twoWinState "http://file/report.pdf" "/files"
      = (OpenDecision.deny, some (OpenEffect.openFile
          ("/files" ++ "/" ++ jsReplaceFirst "http://file/report.pdf" "http://file/"))) ∧
    (windowOpenHandler twoWinState "https://example.com/" "/files").1
      = OpenDecision.deny ∧
    (windowOpenHandler twoWinState "https://example.com/" "/files").2
      = some (OpenEffect.navigateExisting "https://example.com/") :=
  ⟨(windowOpenHandler_contract twoWinState "https://github.com/login" "/files").1
      (by decide),
   (windowOpenHandler_contract twoWinState "http://file/report.pdf" "/files").2.1
      (by decide) (by decide),
   ((windowOpenHandler_contract twoWinState "https://example.com/" "/files").2.2
      (by decide) (by decide)).1,
   ((windowOpenHandler_contract twoWinState "https://example.com/" "/files").2.2
      (by decide) (by decide)).2.1 ⟨1⟩ (by decide) (by decide)⟩

/-- C8 counterexample: on the dash-less system locale "zh" (configured
language "system"), `defaultLang` evaluates `split('-')[1]`, which is
`undefined`, and the `.toLocaleLowerCase()` call inside the
region-classification branch throws, while the branch-removed variant
returns the fallback locale — so the two functions are not extensionally
equal as the claim states. -/
theorem defaultLang_bare_zh_differs :
    defaultLang none (some "system") "zh" ["zh-CN", "zh-TW", "en-US"] "en-US"
      = Except.error () ∧
    defaultLangNoZhBranch none (some "system") "zh" ["zh-CN", "zh-TW", "en-US"] "en-US"
      = Except.ok "en-US" ∧
    defaultLang none (some "system") "zh" ["zh-CN", "zh-TW", "en-US"] "en-US"
      ≠ defaultLangNoZhBranch none (some "system") "zh" ["zh-CN", "zh-TW", "en-US"]
          "en-US" := by
  refine ⟨rfl, rfl, fun h => ?_⟩
  rw [show defaultLang none (some "system") "zh" ["zh-CN", "zh-TW", "en-US"] "en-US"
        = Except.error () from rfl,
      show defaultLangNoZhBranch none (some "system") "zh" ["zh-CN", "zh-TW", "en-US"]
          "en-US" = Except.ok "en-US" from rfl] at h
  exact Except.noConfusion h

/-- C8 amended: the zh-CN and zh-TW assignments are dead code, so
`defaultLang` agrees with the branch-removed variant on every input on
which the region classification itself does not throw — i.e. whenever the
system locale, if it starts with "zh", contains a "-"; on a dash-less
"zh"-prefixed locale the original instead throws a TypeError. -/
theorem defaultLang_eq_noZhBranch (value configLang : Option String)
    (sysLocale : String) (langCode : List String) (defaultLocale : String)
    (hregion : jsStartsWith sysLocale "zh" = true →
      (jsSplitSecond sysLocale "-").isSome = true) :
    defaultLang value configLang sysLocale langCode defaultLocale
      = defaultLangNoZhBranch value configLang sysLocale langCode defaultLocale := by
  unfold defaultLang defaultLangNoZhBranch
  by_cases hc : (strFalsy (if strFalsy value then configLang else value)
      || ((if strFalsy value then configLang else value) == some "system")) = true
  · by_cases hzh : jsStartsWith sysLocale "zh" = true
    · obtain ⟨region, hr⟩ := Option.isSome_iff_exists.mp (hregion hzh)
      simp [hc, hzh, hr]
    · simp [hc, hzh]
  · simp [hc]

/-- C8 amended witness: the hyphenated system locale "zh-CN" under the
"system" configuration. -/
theorem defaultLang_eq_noZhBranch_witness :
    defaultLang none (some "system") "zh-CN" ["zh-CN", "zh-TW", "en-US"] "en-US"
      = defaultLangNoZhBranch none (some "system") "zh-CN"
          ["zh-CN", "zh-TW", "en-US"] "en-US" :=
  defaultLang_eq_noZhBranch none (some "system") "zh-CN"
    ["zh-CN", "zh-TW", "en-US"] "en-US" (fun _ => by rfl)

/-- C9 counterexample: a context-menu invocation with no selected text on a
non-editable region pops no menu at all — in particular no menu containing
the inspect entry — because every edit entry is invisible and the popup is
gated on the filtered edit entries alone. -/
theorem contextMenu_suppressed_without_selection :
    shownMenu noSelectionParams = none := by
  rfl

/-- C9 amended: whenever a menu is shown it does contain the inspect
entry, but the menu is shown exactly when at least one edit entry
(copy, paste, cut) survives the visibility filter; the inspect entry alone
never causes a popup, so with no selected text on a non-editable region no
menu is shown. -/
theorem shownMenu_inspect_iff_edit_visible (properties : ContextMenuParams) :
    (∀ m, shownMenu properties = some m → inspectItem ∈ m) ∧
    ((shownMenu properties).isSome ↔
      0 < ((createEditMenuItems properties).filter
        (fun item => item.visible != false)).length) ∧
    (jsTrim properties.selectionText = "" → properties.isEditable = false →
      shownMenu properties = none) := by
  by_cases hlen : 0 < ((createEditMenuItems properties).filter
      (fun item => item.visible != false)).length
  · have heq : shownMenu properties
        = some (if 0 < (createDictionarySuggestions properties).length then
            createDictionarySuggestions properties ++ [separatorItem]
              ++ [createSpellCheckMenuItem properties] ++ [separatorItem]
              ++ ((createEditMenuItems properties).filter
                  (fun item => item.visible != false) ++ createInspectMenuItems)
          else (createEditMenuItems properties).filter
              (fun item => item.visible != false) ++ createInspectMenuItems) := by
      simp only [shownMenu]
      rw [if_pos hlen]
    refine ⟨fun m hm => ?_, ?_, fun hsel hed => ?_⟩
    · rw [heq] at hm
      rw [← Option.some.inj hm]
      by_cases hd : 0 < (createDictionarySuggestions properties).length
      · rw [if_pos hd]
        simp [createInspectMenuItems]
      · rw [if_neg hd]
        simp [createInspectMenuItems]
    · rw [heq]
      exact iff_of_true rfl hlen
    · exfalso
      have htext : (jsTrim properties.selectionText).length = 0 := by
        rw [hsel]
        rfl
      revert hlen
      simp [createEditMenuItems, htext, hed, apply_ite]
  · have heq : shownMenu properties = none := by
      simp only [shownMenu]
      rw [if_neg hlen]
    refine ⟨fun m hm => ?_, ?_, fun hsel hed => heq⟩
    · rw [heq] at hm
      exact Option.noConfusion hm
    · rw [heq]
      exact iff_of_false (by simp) hlen

/-- C9 amended witness: with selected text in an editable region a menu is
shown and contains the inspect entry; with no selection on a non-editable
region no menu is shown. -/
theorem shownMenu_inspect_iff_edit_visible_witness :
    inspectItem ∈ (shownMenu selectionParams).getD [] ∧
    (shownMenu selectionParams).isSome = true ∧
    shownMenu noSelectionParams = none :=
  ⟨(shownMenu_inspect_iff_edit_visible selectionParams).1 _ rfl,
   (shownMenu_inspect_iff_edit_visible selectionParams).2.1.mpr (by decide),
   (shownMenu_inspect_iff_edit_visible noSelectionParams).2.2 rfl rfl⟩

end MfTools
